import Mathlib

/-!
Shallow embedding of the oil & gas power-plant dashboard (src/app.py) and
proofs of the specification claims about it.

Modelling conventions:
- a pandas cell is a Cell: a string, a rational number, or the missing
  marker NaN (Cell.na); pandas stores mtimes and numeric columns as floats,
  modelled here as Rat (mtimes and coordinates are ordinary finite numbers);
- a DataFrame is a column-name schema plus an ordered list of rows, each row
  an association list from column name to cell (pandas rows all share the
  schema; row lookup of an absent key defaults to the missing marker);
- operations that can raise a pandas KeyError (column indexing such as
  df[col]) are embedded in Except String, the error carrying the column;
- pandas Series.isin semantics: NaN matches NaN (pandas isin hashes NaN
  consistently), so plain decidable Cell equality is the right membership.
-/

inductive Cell where
  | strv : String → Cell
  | numv : Rat → Cell
  | na : Cell
deriving DecidableEq

/-- Association-list lookup of a column inside one row; an absent key is the
missing marker. -/
def lookupCell : List (String × Cell) → String → Cell
  | [], _ => Cell.na
  | p :: ps, c => if p.1 = c then p.2 else lookupCell ps c

/-- Association-list update of a column inside one row: replace the first
binding of the key, append a binding if the key is absent. -/
def setCell : List (String × Cell) → String → Cell → List (String × Cell)
  | [], c, v => [(c, v)]
  | p :: ps, c, v => if p.1 = c then (c, v) :: ps else p :: setCell ps c v

structure Row where
  cells : List (String × Cell)
deriving DecidableEq

def Row.get (r : Row) (c : String) : Cell := lookupCell r.cells c

def Row.set (r : Row) (c : String) (v : Cell) : Row := ⟨setCell r.cells c v⟩

structure DataFrame where
  cols : List String
  rows : List Row
deriving DecidableEq

deriving instance DecidableEq for Except

/-! ## Filter Applicator (src/app.py, apply_filters, lines 123-127)

The Python loop is
    for col, chosen in selections.items():
        if chosen:
            df = df[df[col].isin(chosen)]
A non-empty chosen list on a column absent from the frame raises KeyError;
an empty chosen list short-circuits before the column is touched. -/

/-- Embeds one iteration of the apply_filters loop: the body
df = df[df[col].isin(chosen)] guarded by "if chosen". -/
def applyOneFilter (df : DataFrame) (col : String) (chosen : List Cell) :
    Except String DataFrame :=
  if chosen.isEmpty then .ok df
  else if col ∈ df.cols then
    .ok ⟨df.cols, df.rows.filter (fun r => decide (r.get col ∈ chosen))⟩
  else .error col

/-- Embeds apply_filters (src/app.py lines 123-127): fold of the loop body
over the ordered selection entries, propagating a KeyError. -/
def apply_filters (df : DataFrame) : List (String × List Cell) → Except String DataFrame
  | [] => .ok df
  | (col, chosen) :: rest =>
    match applyOneFilter df col chosen with
    | .ok df1 => apply_filters df1 rest
    | .error e => .error e

/-- The conjunction-across-columns, disjunction-within-a-column predicate a
row must satisfy to survive apply_filters. -/
def rowPasses (sel : List (String × List Cell)) (r : Row) : Bool :=
  sel.all (fun p => p.2.isEmpty || decide (r.get p.1 ∈ p.2))

/-! ## Filter Builder (src/app.py, build_filters, lines 101-120)

For each filterable column the code computes
    values = ["All"] + sorted(df[col].dropna().unique())
and, when the user keeps the default "All" choice, stores values[1:] — the
sorted distinct non-missing values — as the accepted list for that column.
Indexing df[col] on an absent column raises KeyError. The embedding models
the all-"All" selection, the one claim C4 is about. Sorting of mixed-type
cells is modelled by a total strict order on Cell (Python would raise on a
heterogeneous column; the claims only depend on list membership). -/

def filter_columns : List String :=
  ["Country", "Status", "Fuel", "Hydrogen capable?", "Region", "Technology", "CHP"]

def cellLtb : Cell → Cell → Bool
  | .strv a, .strv b => decide (a < b)
  | .numv a, .numv b => decide (a < b)
  | .numv _, .strv _ => true
  | .na, .strv _ => true
  | .na, .numv _ => true
  | _, _ => false

def insertCell (x : Cell) : List Cell → List Cell
  | [] => [x]
  | y :: ys => if cellLtb y x then y :: insertCell x ys else x :: y :: ys

/-- Insertion sort on cells, embedding Python sorted(...). -/
def sortCells : List Cell → List Cell
  | [] => []
  | x :: xs => insertCell x (sortCells xs)

/-- First-occurrence deduplication, embedding pandas Series.unique. -/
def uniqueCells (seen : List Cell) : List Cell → List Cell
  | [] => []
  | x :: xs => if x ∈ seen then uniqueCells seen xs else x :: uniqueCells (x :: seen) xs

/-- The non-missing cells of one column, in row order: df[col].dropna(). -/
def columnDropna (df : DataFrame) (col : String) : List Cell :=
  df.rows.filterMap (fun r => if r.get col = Cell.na then none else some (r.get col))

/-- sorted(df[col].dropna().unique()): the accepted list the sidebar builds
for a column when the user selects "All". -/
def columnValues (df : DataFrame) (col : String) : List Cell :=
  sortCells (uniqueCells [] (columnDropna df col))

/-- Embeds the build_filters loop in the all-"All" state: for each filterable
column, either a KeyError on an absent column or the accepted list
values[1:]. -/
def buildFiltersLoop (df : DataFrame) : List String → Except String (List (String × List Cell))
  | [] => .ok []
  | c :: cs =>
    if c ∈ df.cols then
      match buildFiltersLoop df cs with
      | .ok rest => .ok ((c, columnValues df c) :: rest)
      | .error e => .error e
    else .error c

/-- The Filter Selection produced by build_filters when every dropdown is at
its default "All" choice. -/
def build_filters_all (df : DataFrame) : Except String (List (String × List Cell)) :=
  buildFiltersLoop df filter_columns

/-! ## Dataset Loader normalization (src/app.py, load_data, lines 65-88)

The loader fills missing values of the designated text columns with
"Unknown" (line 68, raising KeyError when a column is absent), then pipes
the CHP column through astype(str).str.strip().str.lower().map(chp_map)
.fillna("Unknown") (lines 71-80), then coerces the numeric columns that are
present with pd.to_numeric(errors="coerce") (lines 82-86). astype(str)
renders NaN as "nan" and numbers by their repr; string-to-number parsing in
to_numeric is abstracted to integer literals (no claim depends on which
strings parse). -/

def text_cols : List String :=
  ["Country", "Status", "Fuel", "Region", "Hydrogen capable?", "Technology", "CHP"]

def chp_map : List (String × String) :=
  [("yes", "Yes"), ("y", "Yes"), ("no", "No"), ("n", "No"), ("not found", "Not found")]

def cellToStr : Cell → String
  | .strv s => s
  | .numv q => toString q
  | .na => "nan"

/-- fillna("Unknown") on one cell. -/
def fillnaCell (c : Cell) : Cell := if c = Cell.na then Cell.strv "Unknown" else c

def isSpaceChar (ch : Char) : Bool :=
  ch = ' ' || ch = '\t' || ch = '\n' || ch = '\r'

def dropLeadingSpaces : List Char → List Char
  | [] => []
  | ch :: cs => if isSpaceChar ch then dropLeadingSpaces cs else ch :: cs

/-- Embeds Python str.strip: remove leading and trailing whitespace. -/
def stripStr (s : String) : String :=
  ⟨dropLeadingSpaces (dropLeadingSpaces s.data.reverse).reverse⟩

def lowerChar (ch : Char) : Char :=
  if 65 ≤ ch.toNat ∧ ch.toNat ≤ 90 then Char.ofNat (ch.toNat + 32) else ch

/-- Embeds Python str.lower for the ASCII range the data uses. -/
def lowerStr (s : String) : String := ⟨s.data.map lowerChar⟩

/-- The lines 73-80 pipeline on one cell:
astype(str).str.strip().str.lower().map(chp_map).fillna("Unknown"). -/
def chpLookup (c : Cell) : String :=
  (chp_map.lookup (lowerStr (stripStr (cellToStr c)))).getD "Unknown"

def chpPipeline (c : Cell) : Cell := Cell.strv (chpLookup c)

/-- The full normalization load_data applies to one raw CHP cell: the
line 68 fillna followed by the lines 73-80 pipeline. -/
def normalizeCHP (raw : Cell) : String := chpLookup (fillnaCell raw)

/-- Embeds the pandas column assignment df[col] = f(df[col]): the schema is
unchanged, every row has its cell for that column rewritten. -/
def setColumn (df : DataFrame) (col : String) (f : Cell → Cell) : DataFrame :=
  ⟨df.cols, df.rows.map (fun r => r.set col (f (r.get col)))⟩

/-- Embeds the lines 67-68 loop: df[col] = df[col].fillna("Unknown") for each
designated text column, raising KeyError when a column is absent. -/
def fillnaLoop (df : DataFrame) : List String → Except String DataFrame
  | [] => .ok df
  | c :: cs =>
    if c ∈ df.cols then fillnaLoop (setColumn df c fillnaCell) cs
    else .error c

/-- Embeds lines 71-80: the CHP pipeline, guarded by membership of CHP in the
columns. -/
def chpStep (df : DataFrame) : DataFrame :=
  if "CHP" ∈ df.cols then setColumn df "CHP" chpPipeline else df

def numeric_cols : List String := ["Capacity (MW)", "Latitude", "Longitude", "Start year"]

/-- Embeds pd.to_numeric(errors="coerce") on one cell: numbers stay, missing
stays missing, strings parse or coerce to the missing marker. -/
def to_numericCell : Cell → Cell
  | .numv q => .numv q
  | .na => .na
  | .strv s =>
    match s.toInt? with
    | some n => .numv (n : Rat)
    | none => .na

/-- Embeds the lines 84-86 loop: coerce each numeric column that is present. -/
def coerceLoop (df : DataFrame) : List String → DataFrame
  | [] => df
  | c :: cs =>
    coerceLoop (if c ∈ df.cols then setColumn df c to_numericCell else df) cs

/-- Embeds the whole normalization part of load_data (lines 65-88), the part
applied identically after the cache or the Excel read. -/
def normalizeDF (df : DataFrame) : Except String DataFrame :=
  match fillnaLoop df text_cols with
  | .ok df1 => .ok (coerceLoop (chpStep df1) numeric_cols)
  | .error e => .error e

def fillRow (cs : List String) (r : Row) : Row :=
  cs.foldl (fun r c => r.set c (fillnaCell (r.get c))) r

def chpRow (r : Row) : Row := r.set "CHP" (chpPipeline (r.get "CHP"))

def coerceRow (cols cs : List String) (r : Row) : Row :=
  cs.foldl (fun r c => if c ∈ cols then r.set c (to_numericCell (r.get c)) else r) r

/-- The per-row effect of the whole load_data normalization on a frame whose
schema is cols. -/
def normRow (cols : List String) (r : Row) : Row :=
  coerceRow cols numeric_cols (chpRow (fillRow text_cols r))

def sampleLoadIn : DataFrame :=
  ⟨text_cols,
    [⟨[("Country", Cell.na), ("Status", Cell.strv "Operating"), ("Fuel", Cell.strv "Gas"),
       ("Region", Cell.strv "Americas"), ("Hydrogen capable?", Cell.strv "No"),
       ("Technology", Cell.strv "CC"), ("CHP", Cell.na)]⟩]⟩

def sampleLoadOut : DataFrame :=
  ⟨text_cols,
    [⟨[("Country", Cell.strv "Unknown"), ("Status", Cell.strv "Operating"),
       ("Fuel", Cell.strv "Gas"), ("Region", Cell.strv "Americas"),
       ("Hydrogen capable?", Cell.strv "No"), ("Technology", Cell.strv "CC"),
       ("CHP", Cell.strv "Unknown")]⟩]⟩

def display_cols : List String :=
  ["Plant name", "Unit name", "Country", "Region", "City", "Fuel", "Capacity (MW)",
   "Status", "Technology", "Hydrogen capable?", "Start year", "Owner"]

inductive TableView where
  | warnMissing : List String → TableView
  | table : DataFrame → TableView
deriving DecidableEq

/-- Embeds lines 217-221 of main: the detail-table projection degrades to a
warning listing the missing display columns instead of raising; with no
missing column it shows the projection onto the fixed display columns. -/
def displayTable (df : DataFrame) : TableView :=
  if (display_cols.filter (fun c => decide (c ∉ df.cols))).isEmpty then
    TableView.table
      ⟨display_cols, df.rows.map (fun r => ⟨display_cols.map (fun c => (c, r.get c))⟩)⟩
  else TableView.warnMissing (display_cols.filter (fun c => decide (c ∉ df.cols)))

def isErrorE (x : Except String DataFrame) : Bool :=
  match x with
  | .error _ => true
  | .ok _ => false

/-! ## Map Renderer (src/app.py, make_map, lines 130-163)

plot_df = df.dropna(subset=["Latitude", "Longitude", "Capacity (MW)"]); an
empty remainder emits the no-match warning and returns None before plotly is
touched; otherwise px.scatter_mapbox is called over exactly plot_df. dropna
raises KeyError when a subset column is absent from the frame. The
px.scatter_mapbox call itself can raise: every column it references (lat,
lon, size, color, hover_name, hover_data) must be a column of plot_df, and
the scattermapbox marker.size schema has minimum 0, validated elementwise,
so a negative Capacity (MW) value in plot_df raises ValueError. No
coordinate-range check exists anywhere: latitude and longitude values are
passed through unvalidated. -/

structure Figure where
  plotData : List Row
deriving DecidableEq

def map_subset_cols : List String := ["Latitude", "Longitude", "Capacity (MW)"]

/-- dropna(subset=...) keeps a row iff all three cells are non-missing. -/
def rowComplete (r : Row) : Bool :=
  map_subset_cols.all (fun c => !(decide (r.get c = Cell.na)))

/-- The columns the px.scatter_mapbox call of lines 136-161 references: lat,
lon, size, color, hover_name and the hover_data keys. -/
def px_ref_cols : List String :=
  ["Latitude", "Longitude", "Capacity (MW)", "Status", "Plant name", "Unit name",
   "Country", "City", "Fuel", "Technology", "Hydrogen capable?", "Start year", "Owner"]

/-- Elementwise validation of the marker.size array: plotly accepts a size
cell only when it is a number that is at least the schema minimum 0. -/
def capacitySizeValid (r : Row) : Bool :=
  match r.get "Capacity (MW)" with
  | Cell.numv q => decide (0 ≤ q)
  | _ => false

/-- Embeds make_map: drop incomplete rows; empty remainder yields no figure
(the no-match notice) before plotly runs; otherwise the px.scatter_mapbox
call raises when a referenced column is absent or a marker size is negative,
and else produces a figure over exactly the remaining rows. -/
def make_map (df : DataFrame) : Except String (Option Figure) :=
  if map_subset_cols.all (fun c => decide (c ∈ df.cols)) then
    if (df.rows.filter rowComplete).isEmpty then .ok none
    else if px_ref_cols.all (fun c => decide (c ∈ df.cols)) then
      if (df.rows.filter rowComplete).all capacitySizeValid then
        .ok (some ⟨df.rows.filter rowComplete⟩)
      else .error "ValueError: invalid element(s) received for the marker.size property"
    else .error "ValueError: value is not the name of a column in data_frame"
  else .error "KeyError"

def sampleNoCoord : DataFrame :=
  ⟨map_subset_cols,
    [⟨[("Latitude", Cell.na), ("Longitude", Cell.numv 10), ("Capacity (MW)", Cell.numv 5)]⟩]⟩

def sampleOutOfRangeRow : Row :=
  ⟨[("Latitude", Cell.numv 1000), ("Longitude", Cell.numv (-500)),
    ("Capacity (MW)", Cell.numv 0), ("Status", Cell.strv "Operating"),
    ("Plant name", Cell.strv "P"), ("Unit name", Cell.strv "U"),
    ("Country", Cell.strv "USA"), ("City", Cell.strv "X"),
    ("Fuel", Cell.strv "Gas"), ("Technology", Cell.strv "CC"),
    ("Hydrogen capable?", Cell.strv "No"), ("Start year", Cell.numv 2000),
    ("Owner", Cell.strv "O")]⟩

def sampleOutOfRange : DataFrame := ⟨px_ref_cols, [sampleOutOfRangeRow]⟩

def sampleNegativeCapacity : DataFrame :=
  ⟨px_ref_cols,
    [⟨[("Latitude", Cell.numv 30), ("Longitude", Cell.numv (-90)),
       ("Capacity (MW)", Cell.numv (-5)), ("Status", Cell.strv "Operating"),
       ("Plant name", Cell.strv "P"), ("Unit name", Cell.strv "U"),
       ("Country", Cell.strv "USA"), ("City", Cell.strv "X"),
       ("Fuel", Cell.strv "Gas"), ("Technology", Cell.strv "CC"),
       ("Hydrogen capable?", Cell.strv "No"), ("Start year", Cell.numv 2000),
       ("Owner", Cell.strv "O")]⟩]⟩

/-! ## Dataset Loader source choice (src/app.py, load_data lines 50-63 and
read_source_data lines 39-47)

load_data stops with a user-visible error when the source file is missing;
otherwise use_parquet = PARQUET_CACHE.exists() and cache mtime >= source
mtime decides between reading the parquet cache and parsing the Excel
source; the Excel path also tries to rewrite the cache, swallowing any
write failure. File-system facts (existence, mtimes, write success) enter
the embedding as explicit parameters. -/

inductive LoadPath where
  | stopped
  | fromCache
  | fromExcel
deriving DecidableEq

/-- Embeds the control flow of load_data lines 52-63. -/
def load_data_path (data_exists parquet_exists : Bool)
    (last_modified cache_last_modified : Rat) : LoadPath :=
  if data_exists = false then LoadPath.stopped
  else if parquet_exists && decide (cache_last_modified ≥ last_modified) then
    LoadPath.fromCache
  else LoadPath.fromExcel

/-- Embeds read_source_data (lines 39-47): the parsed frame is returned
whether or not the parquet cache write succeeds, because the try/except
swallows the failure. -/
def read_source_data (parsed : DataFrame) (_cacheWriteOk : Bool) : DataFrame := parsed

/-! ## Theorems -/

theorem lookupCell_setCell_self (l : List (String × Cell)) (c : String) (v : Cell) :
    lookupCell (setCell l c v) c = v := by
  induction l with
  | nil => simp [setCell, lookupCell]
  | cons p ps ih =>
    by_cases h : p.1 = c
    · simp [setCell, h, lookupCell]
    · simp [setCell, h, lookupCell, ih]

theorem lookupCell_setCell_ne (l : List (String × Cell)) (c c' : String) (v : Cell)
    (h : c' ≠ c) : lookupCell (setCell l c v) c' = lookupCell l c' := by
  have hcc : ¬ (c = c') := fun hc => h hc.symm
  induction l with
  | nil => simp [setCell, lookupCell, hcc]
  | cons p ps ih =>
    by_cases hp : p.1 = c
    · have hp' : ¬ (p.1 = c') := by rw [hp]; exact hcc
      simp [setCell, hp, lookupCell, hcc, hp']
    · simp [setCell, hp, lookupCell, ih]

theorem Row.get_set_self (r : Row) (c : String) (v : Cell) : (r.set c v).get c = v :=
  lookupCell_setCell_self r.cells c v

theorem Row.get_set_ne (r : Row) (c c' : String) (v : Cell) (h : c' ≠ c) :
    (r.set c v).get c' = r.get c' :=
  lookupCell_setCell_ne r.cells c c' v h

theorem rowPasses_nil (r : Row) : rowPasses [] r = true := rfl

theorem rowPasses_cons (c : String) (ch : List Cell) (sel : List (String × List Cell))
    (r : Row) :
    rowPasses ((c, ch) :: sel) r = ((ch.isEmpty || decide (r.get c ∈ ch)) && rowPasses sel r) := by
  simp [rowPasses]

theorem filter_rowPasses_nil (rows : List Row) :
    List.filter (rowPasses []) rows = rows := by
  apply List.filter_eq_self.mpr
  intro a _
  rfl

/-- Success characterization of apply_filters: when it returns ok, the result
keeps the schema and is exactly the filter by the conjunction predicate. -/
theorem apply_filters_ok_eq (sel : List (String × List Cell)) (df out : DataFrame)
    (h : apply_filters df sel = .ok out) :
    out = ⟨df.cols, df.rows.filter (rowPasses sel)⟩ := by
  induction sel generalizing df with
  | nil =>
    simp [apply_filters] at h
    rw [filter_rowPasses_nil, ← h]
  | cons p rest ih =>
    obtain ⟨c, ch⟩ := p
    by_cases he : ch.isEmpty
    · simp [apply_filters, applyOneFilter, he] at h
      have := ih df h
      rw [this]
      congr 1
      apply List.filter_congr
      intro r _
      rw [rowPasses_cons, he]
      simp
    · by_cases hc : c ∈ df.cols
      · simp [apply_filters, applyOneFilter, he, hc] at h
        have := ih _ h
        rw [this]
        congr 1
        rw [List.filter_filter]
        apply List.filter_congr
        intro r _
        rw [rowPasses_cons]
        simp [he, Bool.and_comm]
      · simp [apply_filters, applyOneFilter, he, hc] at h

/-- Completeness: when every non-trivially-filtered column is present in the
schema, apply_filters succeeds with the filtered frame. -/
theorem apply_filters_ok_of_cols (sel : List (String × List Cell)) (df : DataFrame)
    (hc : ∀ p ∈ sel, p.2 ≠ [] → p.1 ∈ df.cols) :
    apply_filters df sel = .ok ⟨df.cols, df.rows.filter (rowPasses sel)⟩ := by
  induction sel generalizing df with
  | nil =>
    rw [filter_rowPasses_nil]
    simp [apply_filters]
  | cons p rest ih =>
    obtain ⟨c, ch⟩ := p
    by_cases he : ch.isEmpty
    · have step : apply_filters df ((c, ch) :: rest) = apply_filters df rest := by
        simp [apply_filters, applyOneFilter, he]
      rw [step, ih df (fun q hq => hc q (List.mem_cons_of_mem _ hq))]
      congr 2
      apply (List.filter_congr ?_).symm
      intro r _
      rw [rowPasses_cons, he]
      simp
    · have hcc : c ∈ df.cols := by
        apply hc (c, ch) (List.mem_cons_self _ _)
        intro hnil
        have hnil' : ch = [] := hnil
        exact he (by simp [hnil'])
      have step : apply_filters df ((c, ch) :: rest) =
          apply_filters ⟨df.cols, df.rows.filter (fun r => decide (r.get c ∈ ch))⟩ rest := by
        simp [apply_filters, applyOneFilter, he, hcc]
      rw [step, ih ⟨df.cols, df.rows.filter (fun r => decide (r.get c ∈ ch))⟩
        (fun q hq => hc q (List.mem_cons_of_mem _ hq))]
      congr 2
      rw [List.filter_filter]
      apply (List.filter_congr ?_).symm
      intro r _
      rw [rowPasses_cons]
      simp [he, Bool.and_comm]

/-- Each column that apply_filters successfully filtered on is in the schema
(the schema never changes along the loop). -/
theorem apply_filters_cols_present (sel : List (String × List Cell)) (df out : DataFrame)
    (h : apply_filters df sel = .ok out) :
    ∀ p ∈ sel, p.2 ≠ [] → p.1 ∈ df.cols := by
  induction sel generalizing df with
  | nil => intro p hp; simp at hp
  | cons q rest ih =>
    obtain ⟨c, ch⟩ := q
    intro p hp hne
    by_cases he : ch.isEmpty
    · simp [apply_filters, applyOneFilter, he] at h
      rcases List.mem_cons.mp hp with hp1 | hp2
      · subst hp1
        exact absurd (List.isEmpty_iff.mp he) hne
      · exact ih df h p hp2 hne
    · by_cases hc : c ∈ df.cols
      · simp [apply_filters, applyOneFilter, he, hc] at h
        rcases List.mem_cons.mp hp with hp1 | hp2
        · subst hp1; exact hc
        · exact ih _ h p hp2 hne
      · simp [apply_filters, applyOneFilter, he, hc] at h

/-- C1: every successful apply_filters result has at most as many rows as the
input, and each surviving row is, for each selection column with a non-empty
accepted list, a member of that list. -/
theorem claim_C1_apply_filters_sound (df out : DataFrame) (sel : List (String × List Cell))
    (h : apply_filters df sel = .ok out) :
    out.rows.length ≤ df.rows.length ∧
      ∀ r ∈ out.rows, ∀ p ∈ sel, p.2 ≠ [] → r.get p.1 ∈ p.2 := by
  have hout := apply_filters_ok_eq sel df out h
  subst hout
  constructor
  · exact List.length_filter_le _ _
  · intro r hr p hp hne
    have hpass : rowPasses sel r = true := List.of_mem_filter hr
    have := List.all_eq_true.mp hpass p hp
    rcases Bool.or_eq_true_iff.mp this with h1 | h2
    · exact absurd (List.isEmpty_iff.mp h1) hne
    · exact of_decide_eq_true h2

/-- Witness for C1 at a concrete two-row frame filtered to one row. -/
theorem claim_C1_witness :
    (apply_filters
        ⟨["Country"], [⟨[("Country", Cell.strv "USA")]⟩, ⟨[("Country", Cell.strv "India")]⟩]⟩
        [("Country", [Cell.strv "USA"])]
      = .ok ⟨["Country"], [⟨[("Country", Cell.strv "USA")]⟩]⟩) ∧
    (⟨["Country"], [⟨[("Country", Cell.strv "USA")]⟩]⟩ : DataFrame).rows.length ≤
      (⟨["Country"], [⟨[("Country", Cell.strv "USA")]⟩, ⟨[("Country", Cell.strv "India")]⟩]⟩ :
        DataFrame).rows.length :=
  ⟨by decide,
   (claim_C1_apply_filters_sound
      ⟨["Country"], [⟨[("Country", Cell.strv "USA")]⟩, ⟨[("Country", Cell.strv "India")]⟩]⟩
      ⟨["Country"], [⟨[("Country", Cell.strv "USA")]⟩]⟩
      [("Country", [Cell.strv "USA"])] (by decide)).1⟩

theorem rowPasses_perm (sel sel' : List (String × List Cell)) (h : List.Perm sel sel')
    (r : Row) : rowPasses sel' r = rowPasses sel r := by
  cases hb : rowPasses sel r with
  | true =>
    exact List.all_eq_true.mpr fun p hp =>
      List.all_eq_true.mp hb p (h.mem_iff.mpr hp)
  | false =>
    apply Bool.eq_false_iff.mpr
    intro hT
    have hs : rowPasses sel r = true := List.all_eq_true.mpr fun p hp =>
      List.all_eq_true.mp hT p (h.mem_iff.mp hp)
    rw [hb] at hs
    exact Bool.false_ne_true hs

/-- C2: apply_filters is idempotent; re-filtering a successful result with the
same selection returns that result unchanged (same rows, same order). -/
theorem claim_C2_apply_filters_idempotent (df out : DataFrame)
    (sel : List (String × List Cell)) (h : apply_filters df sel = .ok out) :
    apply_filters out sel = .ok out := by
  have hcols := apply_filters_cols_present sel df out h
  have hout := apply_filters_ok_eq sel df out h
  subst hout
  rw [apply_filters_ok_of_cols sel ⟨df.cols, df.rows.filter (rowPasses sel)⟩ hcols]
  congr 2
  rw [List.filter_filter]
  apply List.filter_congr
  intro r _
  exact Bool.and_self _

/-- Witness for C2: re-filtering the one-row result of the C1 scenario is a
fixed point. -/
theorem claim_C2_witness :
    apply_filters ⟨["Country"], [⟨[("Country", Cell.strv "USA")]⟩]⟩
        [("Country", [Cell.strv "USA"])]
      = .ok ⟨["Country"], [⟨[("Country", Cell.strv "USA")]⟩]⟩ :=
  claim_C2_apply_filters_idempotent
    ⟨["Country"], [⟨[("Country", Cell.strv "USA")]⟩, ⟨[("Country", Cell.strv "India")]⟩]⟩
    ⟨["Country"], [⟨[("Country", Cell.strv "USA")]⟩]⟩
    [("Country", [Cell.strv "USA"])] (by decide)

/-- C3: applying the column constraints in any permuted order yields the same
filtered frame as the original order. -/
theorem claim_C3_apply_filters_perm_invariant (df out : DataFrame)
    (sel sel' : List (String × List Cell)) (hperm : List.Perm sel sel')
    (h : apply_filters df sel = .ok out) :
    apply_filters df sel' = .ok out := by
  have hcols := apply_filters_cols_present sel df out h
  have hcols' : ∀ p ∈ sel', p.2 ≠ [] → p.1 ∈ df.cols :=
    fun p hp => hcols p (hperm.mem_iff.mpr hp)
  rw [apply_filters_ok_of_cols sel' df hcols']
  have hout := apply_filters_ok_eq sel df out h
  subst hout
  congr 2
  apply List.filter_congr
  intro r _
  exact rowPasses_perm sel sel' hperm r

/-- Witness for C3 on a two-column selection applied in both orders. -/
theorem claim_C3_witness :
    apply_filters
        ⟨["Country", "Status"],
          [⟨[("Country", Cell.strv "USA"), ("Status", Cell.strv "Operating")]⟩,
           ⟨[("Country", Cell.strv "India"), ("Status", Cell.strv "Retired")]⟩]⟩
        [("Status", [Cell.strv "Operating"]), ("Country", [Cell.strv "USA"])]
      = .ok ⟨["Country", "Status"],
          [⟨[("Country", Cell.strv "USA"), ("Status", Cell.strv "Operating")]⟩]⟩ :=
  claim_C3_apply_filters_perm_invariant
    ⟨["Country", "Status"],
      [⟨[("Country", Cell.strv "USA"), ("Status", Cell.strv "Operating")]⟩,
       ⟨[("Country", Cell.strv "India"), ("Status", Cell.strv "Retired")]⟩]⟩
    ⟨["Country", "Status"],
      [⟨[("Country", Cell.strv "USA"), ("Status", Cell.strv "Operating")]⟩]⟩
    [("Country", [Cell.strv "USA"]), ("Status", [Cell.strv "Operating"])]
    [("Status", [Cell.strv "Operating"]), ("Country", [Cell.strv "USA"])]
    (List.Perm.swap _ _ _) (by decide)

theorem mem_insertCell (a x : Cell) (l : List Cell) :
    a ∈ insertCell x l ↔ a = x ∨ a ∈ l := by
  induction l with
  | nil => simp [insertCell]
  | cons y ys ih =>
    by_cases h : cellLtb y x
    · simp [insertCell, h, ih]
      tauto
    · simp [insertCell, h]

theorem mem_sortCells (a : Cell) (l : List Cell) : a ∈ sortCells l ↔ a ∈ l := by
  induction l with
  | nil => simp [sortCells]
  | cons x xs ih => simp [sortCells, mem_insertCell, ih]

theorem mem_uniqueCells (a : Cell) (seen l : List Cell) :
    a ∈ uniqueCells seen l ↔ a ∈ l ∧ a ∉ seen := by
  induction l generalizing seen with
  | nil => simp [uniqueCells]
  | cons x xs ih =>
    by_cases h : x ∈ seen
    · rw [uniqueCells, if_pos h, ih]
      constructor
      · intro ⟨h1, h2⟩; exact ⟨List.mem_cons_of_mem _ h1, h2⟩
      · rintro ⟨h1, h2⟩
        rcases List.mem_cons.mp h1 with rfl | h3
        · exact absurd h h2
        · exact ⟨h3, h2⟩
    · rw [uniqueCells, if_neg h]
      constructor
      · intro hm
        rcases List.mem_cons.mp hm with rfl | h3
        · exact ⟨List.mem_cons_self _ _, h⟩
        · have := (ih (x :: seen)).mp h3
          exact ⟨List.mem_cons_of_mem _ this.1,
            fun hs => this.2 (List.mem_cons_of_mem _ hs)⟩
      · rintro ⟨h1, h2⟩
        rcases List.mem_cons.mp h1 with rfl | h3
        · exact List.mem_cons_self _ _
        · by_cases hax : a = x
          · subst hax; exact List.mem_cons_self _ _
          · apply List.mem_cons_of_mem
            apply (ih (x :: seen)).mpr
            refine ⟨h3, fun hs => ?_⟩
            rcases List.mem_cons.mp hs with h4 | h5
            · exact hax h4
            · exact h2 h5

theorem mem_columnValues (df : DataFrame) (col : String) (r : Row)
    (hr : r ∈ df.rows) (hna : r.get col ≠ Cell.na) :
    r.get col ∈ columnValues df col := by
  rw [columnValues, mem_sortCells, mem_uniqueCells]
  refine ⟨?_, by simp⟩
  rw [columnDropna, List.mem_filterMap]
  exact ⟨r, hr, by simp [hna]⟩

theorem buildFiltersLoop_ok (df : DataFrame) (cs : List String)
    (hc : ∀ c ∈ cs, c ∈ df.cols) :
    buildFiltersLoop df cs = .ok (cs.map (fun c => (c, columnValues df c))) := by
  induction cs with
  | nil => simp [buildFiltersLoop]
  | cons c cs ih =>
    have h1 : c ∈ df.cols := hc c (List.mem_cons_self _ _)
    rw [buildFiltersLoop, if_pos h1, ih (fun d hd => hc d (List.mem_cons_of_mem _ hd))]
    simp

/-- C4: if the filterable columns are present and contain no missing value,
the selection build_filters produces when every dropdown reads "All" leaves
the dataset unchanged under apply_filters (same rows, same order). -/
theorem claim_C4_all_selection_identity (df : DataFrame) (sel : List (String × List Cell))
    (hcols : ∀ c ∈ filter_columns, c ∈ df.cols)
    (hnomiss : ∀ r ∈ df.rows, ∀ c ∈ filter_columns, r.get c ≠ Cell.na)
    (hsel : build_filters_all df = .ok sel) :
    apply_filters df sel = .ok df := by
  rw [build_filters_all, buildFiltersLoop_ok df filter_columns hcols] at hsel
  have hsel' : sel = filter_columns.map (fun c => (c, columnValues df c)) := by
    cases hsel; rfl
  subst hsel'
  have hc : ∀ p ∈ filter_columns.map (fun c => (c, columnValues df c)),
      p.2 ≠ [] → p.1 ∈ df.cols := by
    intro p hp _
    rcases List.mem_map.mp hp with ⟨c, hcmem, rfl⟩
    exact hcols c hcmem
  rw [apply_filters_ok_of_cols _ df hc]
  have hall : ∀ r ∈ df.rows,
      rowPasses (filter_columns.map (fun c => (c, columnValues df c))) r = true := by
    intro r hr
    apply List.all_eq_true.mpr
    intro p hp
    rcases List.mem_map.mp hp with ⟨c, hcmem, rfl⟩
    apply Bool.or_eq_true_iff.mpr
    right
    exact decide_eq_true (mem_columnValues df c r hr (hnomiss r hr c hcmem))
  have : df.rows.filter (rowPasses (filter_columns.map (fun c => (c, columnValues df c))))
      = df.rows := List.filter_eq_self.mpr hall
  rw [this]

/-- Witness for C4: a one-row frame holding all seven filterable columns is
returned unchanged by the all-"All" selection. -/
theorem claim_C4_witness :
    apply_filters
        ⟨filter_columns,
          [⟨[("Country", Cell.strv "USA"), ("Status", Cell.strv "Operating"),
             ("Fuel", Cell.strv "Gas"), ("Hydrogen capable?", Cell.strv "No"),
             ("Region", Cell.strv "Americas"), ("Technology", Cell.strv "CC"),
             ("CHP", Cell.strv "Yes")]⟩]⟩
        [("Country", [Cell.strv "USA"]), ("Status", [Cell.strv "Operating"]),
         ("Fuel", [Cell.strv "Gas"]), ("Hydrogen capable?", [Cell.strv "No"]),
         ("Region", [Cell.strv "Americas"]), ("Technology", [Cell.strv "CC"]),
         ("CHP", [Cell.strv "Yes"])]
      = .ok ⟨filter_columns,
          [⟨[("Country", Cell.strv "USA"), ("Status", Cell.strv "Operating"),
             ("Fuel", Cell.strv "Gas"), ("Hydrogen capable?", Cell.strv "No"),
             ("Region", Cell.strv "Americas"), ("Technology", Cell.strv "CC"),
             ("CHP", Cell.strv "Yes")]⟩]⟩ :=
  claim_C4_all_selection_identity
    ⟨filter_columns,
      [⟨[("Country", Cell.strv "USA"), ("Status", Cell.strv "Operating"),
         ("Fuel", Cell.strv "Gas"), ("Hydrogen capable?", Cell.strv "No"),
         ("Region", Cell.strv "Americas"), ("Technology", Cell.strv "CC"),
         ("CHP", Cell.strv "Yes")]⟩]⟩
    [("Country", [Cell.strv "USA"]), ("Status", [Cell.strv "Operating"]),
     ("Fuel", [Cell.strv "Gas"]), ("Hydrogen capable?", [Cell.strv "No"]),
     ("Region", [Cell.strv "Americas"]), ("Technology", [Cell.strv "CC"]),
     ("CHP", [Cell.strv "Yes"])]
    (by decide) (by decide) (by decide)

theorem lookup_mem_of_eq_some {α β : Type} [BEq α] (l : List (α × β)) (a : α) (v : β)
    (h : l.lookup a = some v) : ∃ k, (k, v) ∈ l := by
  induction l with
  | nil => simp [List.lookup] at h
  | cons p ps ih =>
    obtain ⟨k, w⟩ := p
    rw [List.lookup] at h
    cases hb : (a == k) with
    | true =>
      rw [hb] at h
      injection h with h
      exact ⟨k, by simp [h]⟩
    | false =>
      rw [hb] at h
      rcases ih h with ⟨k', hk'⟩
      exact ⟨k', List.mem_cons_of_mem _ hk'⟩

theorem chpLookup_mem (c : Cell) :
    chpLookup c ∈ ["Yes", "No", "Not found", "Unknown"] := by
  rw [chpLookup]
  rcases h : chp_map.lookup (lowerStr (stripStr (cellToStr c))) with _ | v
  · simp
  · simp only [Option.getD_some]
    rcases lookup_mem_of_eq_some chp_map _ v h with ⟨k, hk⟩
    simp [chp_map, Prod.ext_iff] at hk
    rcases hk with ⟨_, rfl⟩ | ⟨_, rfl⟩ | ⟨_, rfl⟩ | ⟨_, rfl⟩ | ⟨_, rfl⟩ <;> simp

/-- C5: CHP normalization always lands in the four canonical values, sends
the listed spelling variants where the claim says, sends a missing value to
Unknown, and sends every string the lookup table does not recognize to
Unknown. -/
theorem claim_C5_chp_normalization :
    (∀ c : Cell, normalizeCHP c ∈ ["Yes", "No", "Not found", "Unknown"]) ∧
    normalizeCHP (Cell.strv "yes") = "Yes" ∧
    normalizeCHP (Cell.strv "Yes") = "Yes" ∧
    normalizeCHP (Cell.strv "YES") = "Yes" ∧
    normalizeCHP (Cell.strv " yes ") = "Yes" ∧
    normalizeCHP (Cell.strv "no") = "No" ∧
    normalizeCHP (Cell.strv "N") = "No" ∧
    normalizeCHP (Cell.strv "NOT FOUND") = "Not found" ∧
    normalizeCHP Cell.na = "Unknown" ∧
    ∀ s : String, chp_map.lookup (lowerStr (stripStr s)) = none →
      normalizeCHP (Cell.strv s) = "Unknown" := by
  refine ⟨fun c => chpLookup_mem _, by decide, by decide, by decide, by decide,
    by decide, by decide, by decide, by decide, fun s h => ?_⟩
  simp [normalizeCHP, fillnaCell, chpLookup, cellToStr, h]

/-- Witness for C5: an unrecognized spelling is normalized to Unknown. -/
theorem claim_C5_witness :
    chp_map.lookup (lowerStr (stripStr "maybe")) = none ∧
    normalizeCHP (Cell.strv "maybe") = "Unknown" :=
  ⟨by decide,
   claim_C5_chp_normalization.2.2.2.2.2.2.2.2.2 "maybe" (by decide)⟩

theorem fillnaCell_ne_na (c : Cell) : fillnaCell c ≠ Cell.na := by
  by_cases h : c = Cell.na <;> simp [fillnaCell, h]

theorem fillnaCell_idem (c : Cell) : fillnaCell (fillnaCell c) = fillnaCell c := by
  by_cases h : c = Cell.na <;> simp [fillnaCell, h]

theorem map_fillRow_nil (rows : List Row) : rows.map (fillRow []) = rows := by
  induction rows with
  | nil => rfl
  | cons r rs ih =>
    rw [List.map_cons, ih]
    rfl

theorem fillnaLoop_ok_eq (cs : List String) (df : DataFrame)
    (hc : ∀ c ∈ cs, c ∈ df.cols) :
    fillnaLoop df cs = .ok ⟨df.cols, df.rows.map (fillRow cs)⟩ := by
  induction cs generalizing df with
  | nil =>
    simp only [fillnaLoop]
    rw [map_fillRow_nil]
  | cons c cs ih =>
    have h1 : c ∈ df.cols := hc c (List.mem_cons_self _ _)
    have step : fillnaLoop df (c :: cs) = fillnaLoop (setColumn df c fillnaCell) cs := by
      simp [fillnaLoop, h1]
    rw [step, ih (setColumn df c fillnaCell) (fun d hd => hc d (List.mem_cons_of_mem _ hd))]
    rw [setColumn, List.map_map]
    rfl

theorem fillRow_get (cs : List String) (r : Row) (c : String) :
    (fillRow cs r).get c = if c ∈ cs then fillnaCell (r.get c) else r.get c := by
  induction cs generalizing r with
  | nil => simp [fillRow]
  | cons d ds ih =>
    have hstep : fillRow (d :: ds) r = fillRow ds (r.set d (fillnaCell (r.get d))) := rfl
    rw [hstep, ih]
    by_cases hd : c = d
    · subst hd
      by_cases hm : c ∈ ds
      · simp [hm, Row.get_set_self, fillnaCell_idem]
      · simp [hm, Row.get_set_self]
    · rw [Row.get_set_ne _ _ _ _ hd]
      simp [List.mem_cons, hd]

theorem coerceLoop_eq (cs : List String) (df : DataFrame) :
    coerceLoop df cs = ⟨df.cols, df.rows.map (coerceRow df.cols cs)⟩ := by
  induction cs generalizing df with
  | nil =>
    simp only [coerceLoop]
    have h0 : df.rows.map (coerceRow df.cols []) = df.rows := by
      induction df.rows with
      | nil => rfl
      | cons r rs ihr =>
        rw [List.map_cons, ihr]
        rfl
    rw [h0]
  | cons c cs ih =>
    by_cases hc : c ∈ df.cols
    · have step : coerceLoop df (c :: cs) = coerceLoop (setColumn df c to_numericCell) cs := by
        simp [coerceLoop, hc]
      rw [step, ih (setColumn df c to_numericCell)]
      rw [setColumn, List.map_map]
      congr 1
      apply List.map_congr_left
      intro r _
      simp [coerceRow, List.foldl_cons, hc]
    · have step : coerceLoop df (c :: cs) = coerceLoop df cs := by
        simp [coerceLoop, hc]
      rw [step, ih df]
      congr 1
      apply List.map_congr_left
      intro r _
      simp [coerceRow, List.foldl_cons, hc]

theorem coerceRow_get_not_mem (cols cs : List String) (r : Row) (c : String) :
    c ∉ cs → (coerceRow cols cs r).get c = r.get c := by
  induction cs generalizing r with
  | nil => intro _; rfl
  | cons d ds ih =>
    intro hc
    have hd : c ≠ d := fun h => hc (h ▸ List.mem_cons_self _ _)
    have hds : c ∉ ds := fun h => hc (List.mem_cons_of_mem _ h)
    by_cases hcol : d ∈ cols
    · have step : coerceRow cols (d :: ds) r
          = coerceRow cols ds (r.set d (to_numericCell (r.get d))) := by
        simp [coerceRow, hcol]
      rw [step, ih _ hds, Row.get_set_ne _ _ _ _ hd]
    · have step : coerceRow cols (d :: ds) r = coerceRow cols ds r := by
        simp [coerceRow, hcol]
      rw [step, ih _ hds]

theorem normalizeDF_ok_eq (df : DataFrame) (hc : ∀ c ∈ text_cols, c ∈ df.cols) :
    normalizeDF df = .ok ⟨df.cols, df.rows.map (normRow df.cols)⟩ := by
  have h1 := fillnaLoop_ok_eq text_cols df hc
  have hchp : "CHP" ∈ df.cols := hc "CHP" (by decide)
  simp only [normalizeDF, h1]
  have h2 : chpStep ⟨df.cols, df.rows.map (fillRow text_cols)⟩ =
      ⟨df.cols, (df.rows.map (fillRow text_cols)).map chpRow⟩ := by
    simp [chpStep, hchp, setColumn, chpRow]
  rw [h2, coerceLoop_eq]
  rw [List.map_map, List.map_map]
  rfl

theorem fillnaLoop_ok_cols (cs : List String) (df out : DataFrame)
    (h : fillnaLoop df cs = .ok out) : ∀ c ∈ cs, c ∈ df.cols := by
  induction cs generalizing df with
  | nil => intro c hcm; simp at hcm
  | cons d ds ih =>
    intro c hcm
    by_cases hd : d ∈ df.cols
    · have step : fillnaLoop df (d :: ds) = fillnaLoop (setColumn df d fillnaCell) ds := by
        simp [fillnaLoop, hd]
      rw [step] at h
      rcases List.mem_cons.mp hcm with rfl | h2
      · exact hd
      · exact ih (setColumn df d fillnaCell) h c h2
    · simp [fillnaLoop, hd] at h

theorem normalizeDF_ok_cols (df out : DataFrame) (h : normalizeDF df = .ok out) :
    ∀ c ∈ text_cols, c ∈ df.cols := by
  cases hf : fillnaLoop df text_cols with
  | ok df1 => exact fillnaLoop_ok_cols text_cols df df1 hf
  | error e => simp [normalizeDF, hf] at h

theorem normRow_get_text (cols : List String) (r : Row) (c : String) (hc : c ∈ text_cols) :
    (normRow cols r).get c ≠ Cell.na ∧
    (r.get c = Cell.na → (normRow cols r).get c = Cell.strv "Unknown") := by
  have hdisj : ∀ d ∈ text_cols, d ∉ numeric_cols := by decide
  have hnn : c ∉ numeric_cols := hdisj c hc
  have h1 : (normRow cols r).get c = (chpRow (fillRow text_cols r)).get c := by
    rw [normRow]
    exact coerceRow_get_not_mem cols numeric_cols _ c hnn
  rw [h1]
  by_cases hCHP : c = "CHP"
  · subst hCHP
    rw [chpRow, Row.get_set_self]
    constructor
    · simp [chpPipeline]
    · intro hna
      have hm : "CHP" ∈ text_cols := by decide
      have h2 : (fillRow text_cols r).get "CHP" = Cell.strv "Unknown" := by
        rw [fillRow_get, if_pos hm, hna]
        simp [fillnaCell]
      rw [h2]
      decide
  · have h3 : (chpRow (fillRow text_cols r)).get c = (fillRow text_cols r).get c :=
      Row.get_set_ne _ "CHP" c _ hCHP
    rw [h3, fillRow_get, if_pos hc]
    constructor
    · exact fillnaCell_ne_na _
    · intro hna
      simp [hna, fillnaCell]

/-- C6: for every frame the loader normalizes successfully, no designated
text column holds a missing value afterwards, and each originally missing
cell of those columns has become the literal string Unknown. -/
theorem claim_C6_text_columns_never_missing (df out : DataFrame)
    (h : normalizeDF df = .ok out) :
    out.rows.length = df.rows.length ∧
    ∀ (i : Nat) (hi : i < out.rows.length) (hj : i < df.rows.length),
      ∀ c ∈ text_cols,
        out.rows[i].get c ≠ Cell.na ∧
        (df.rows[i].get c = Cell.na → out.rows[i].get c = Cell.strv "Unknown") := by
  have hc := normalizeDF_ok_cols df out h
  rw [normalizeDF_ok_eq df hc] at h
  injection h with h
  subst h
  constructor
  · simp
  · intro i hi hj c hctext
    simp only [List.getElem_map]
    exact normRow_get_text df.cols _ c hctext

/-- Witness for C6: a row with missing Country and CHP is normalized to
Unknown in both columns. -/
theorem claim_C6_witness :
    sampleLoadOut.rows.length = sampleLoadIn.rows.length ∧
    (sampleLoadOut.rows.get ⟨0, by decide⟩).get "Country" = Cell.strv "Unknown" :=
  ⟨(claim_C6_text_columns_never_missing sampleLoadIn sampleLoadOut (by decide)).1,
   ((claim_C6_text_columns_never_missing sampleLoadIn sampleLoadOut (by decide)).2 0
      (by decide) (by decide) "Country" (by decide)).2 (by decide)⟩

theorem fillnaLoop_error_of_missing (cs : List String) (df : DataFrame)
    (hx : ∃ c ∈ cs, c ∉ df.cols) : ∃ e, fillnaLoop df cs = .error e := by
  induction cs generalizing df with
  | nil =>
    rcases hx with ⟨c, hc, _⟩
    simp at hc
  | cons d ds ih =>
    by_cases hd : d ∈ df.cols
    · have step : fillnaLoop df (d :: ds) = fillnaLoop (setColumn df d fillnaCell) ds := by
        simp [fillnaLoop, hd]
      rw [step]
      apply ih
      rcases hx with ⟨c, hc, hnc⟩
      rcases List.mem_cons.mp hc with rfl | h2
      · exact absurd hd hnc
      · exact ⟨c, h2, hnc⟩
    · exact ⟨d, by simp [fillnaLoop, hd]⟩

/-- C9: load_data indexes every designated text column unconditionally, so a
frame missing one of them makes normalization raise, while the display-table
projection of main degrades to a warning value for every frame instead of
raising. -/
theorem claim_C9_loader_requires_text_columns (df : DataFrame) (c : String)
    (h1 : c ∈ text_cols) (h2 : c ∉ df.cols) :
    isErrorE (normalizeDF df) = true ∧
    ∀ d : DataFrame,
      displayTable d = TableView.warnMissing
          (display_cols.filter (fun x => decide (x ∉ d.cols))) ∨
      displayTable d = TableView.table
          ⟨display_cols, d.rows.map (fun r => ⟨display_cols.map (fun x => (x, r.get x))⟩)⟩ := by
  constructor
  · rcases fillnaLoop_error_of_missing text_cols df ⟨c, h1, h2⟩ with ⟨e, he⟩
    simp [normalizeDF, he, isErrorE]
  · intro d
    by_cases hm : (display_cols.filter (fun x => decide (x ∉ d.cols))).isEmpty
    · right
      rw [displayTable, if_pos hm]
    · left
      rw [displayTable, if_neg hm]

/-- Witness for C9: a frame having only a Country column makes the loader
normalization raise. -/
theorem claim_C9_witness :
    isErrorE (normalizeDF ⟨["Country"], []⟩) = true :=
  (claim_C9_loader_requires_text_columns ⟨["Country"], []⟩ "CHP" (by decide) (by decide)).1

/-- C8: make_map drops exactly the rows missing latitude, longitude, or
capacity, and on a frame where every row misses at least one of the three it
returns ok none (the no-map, no-match state), not an error. -/
theorem claim_C8_make_map_empty_state (df : DataFrame)
    (hc : ∀ c ∈ map_subset_cols, c ∈ df.cols) :
    (∀ fig, make_map df = .ok (some fig) → fig.plotData = df.rows.filter rowComplete) ∧
    ((∀ r ∈ df.rows, r.get "Latitude" = Cell.na ∨ r.get "Longitude" = Cell.na ∨
        r.get "Capacity (MW)" = Cell.na) → make_map df = .ok none) := by
  have hcb : map_subset_cols.all (fun c => decide (c ∈ df.cols)) = true :=
    List.all_eq_true.mpr (fun c hcm => decide_eq_true (hc c hcm))
  constructor
  · intro fig hfig
    rw [make_map, if_pos hcb] at hfig
    by_cases hemp : (df.rows.filter rowComplete).isEmpty
    · rw [if_pos hemp] at hfig
      simp at hfig
    · rw [if_neg hemp] at hfig
      by_cases hpx : px_ref_cols.all (fun c => decide (c ∈ df.cols))
      · rw [if_pos hpx] at hfig
        by_cases hsz : (df.rows.filter rowComplete).all capacitySizeValid
        · rw [if_pos hsz] at hfig
          injection hfig with hfig
          injection hfig with hfig
          rw [← hfig]
        · rw [if_neg hsz] at hfig
          simp at hfig
      · rw [if_neg hpx] at hfig
        simp at hfig
  · intro hall
    have hfe : df.rows.filter rowComplete = [] := by
      apply List.filter_eq_nil_iff.mpr
      intro r hr
      rcases hall r hr with h | h | h <;> simp [rowComplete, map_subset_cols, h]
    rw [make_map, if_pos hcb, hfe]
    rfl

/-- Witness for C8: a frame whose single row lacks a latitude yields the
no-map state. -/
theorem claim_C8_witness : make_map sampleNoCoord = .ok none :=
  (claim_C8_make_map_empty_state sampleNoCoord (by decide)).2 (by decide)

/-- C10 counterexample: a row whose latitude, longitude and capacity are all
present but whose capacity is negative survives the dropna filter, yet
make_map raises the plotly marker.size validation error instead of returning
a figure that includes the row as a marker. -/
theorem claim_C10_counterexample :
    rowComplete (sampleNegativeCapacity.rows.get ⟨0, by decide⟩) = true ∧
    make_map sampleNegativeCapacity
      = .error "ValueError: invalid element(s) received for the marker.size property" := by
  decide

/-- C10 amended: make_map performs no coordinate-range validation: provided
every column the figure references is present and every surviving row has a
nonnegative numeric capacity, any row whose three required cells are
non-missing is among the plotted rows, whatever its coordinate values (and a
zero capacity is still accepted); only a negative capacity aborts the figure
instead. -/
theorem claim_C10_no_coordinate_validation_amended (df : DataFrame) (r : Row)
    (hc : ∀ c ∈ px_ref_cols, c ∈ df.cols) (hr : r ∈ df.rows)
    (hcomplete : rowComplete r = true)
    (hsize : (df.rows.filter rowComplete).all capacitySizeValid = true) :
    make_map df = .ok (some ⟨df.rows.filter rowComplete⟩) ∧
      r ∈ df.rows.filter rowComplete := by
  have hsubset : ∀ c ∈ map_subset_cols, c ∈ px_ref_cols := by decide
  have hcb : map_subset_cols.all (fun c => decide (c ∈ df.cols)) = true :=
    List.all_eq_true.mpr (fun c hcm => decide_eq_true (hc c (hsubset c hcm)))
  have hpxb : px_ref_cols.all (fun c => decide (c ∈ df.cols)) = true :=
    List.all_eq_true.mpr (fun c hcm => decide_eq_true (hc c hcm))
  have hmem : r ∈ df.rows.filter rowComplete := List.mem_filter.mpr ⟨hr, hcomplete⟩
  have hne : (df.rows.filter rowComplete).isEmpty = false := by
    cases hfe : df.rows.filter rowComplete with
    | nil =>
      rw [hfe] at hmem
      simp at hmem
    | cons a l => rfl
  refine ⟨?_, hmem⟩
  rw [make_map, if_pos hcb, if_neg (by simp [hne]), if_pos hpxb, if_pos hsize]

/-- Witness for the amended C10: a row with latitude 1000, longitude -500
and zero capacity is still plotted. -/
theorem claim_C10_witness :
    make_map sampleOutOfRange
        = .ok (some ⟨sampleOutOfRange.rows.filter rowComplete⟩) ∧
      sampleOutOfRangeRow ∈ sampleOutOfRange.rows.filter rowComplete :=
  claim_C10_no_coordinate_validation_amended sampleOutOfRange sampleOutOfRangeRow
    (by decide) (by decide) (by decide) (by decide)

/-- C7: given the source file exists, load_data reads the cache iff the
cache artifact exists and its modification time is at least the source
modification time, otherwise it parses the Excel source; and a cache-write
failure never changes the frame read_source_data returns. -/
theorem claim_C7_cache_freshness (data_exists parquet_exists : Bool)
    (last_modified cache_last_modified : Rat) (parsed : DataFrame) (w1 w2 : Bool)
    (hd : data_exists = true) :
    (load_data_path data_exists parquet_exists last_modified cache_last_modified =
        LoadPath.fromCache ↔
      (parquet_exists = true ∧ cache_last_modified ≥ last_modified)) ∧
    (load_data_path data_exists parquet_exists last_modified cache_last_modified =
        LoadPath.fromExcel ↔
      ¬ (parquet_exists = true ∧ cache_last_modified ≥ last_modified)) ∧
    read_source_data parsed w1 = read_source_data parsed w2 := by
  subst hd
  cases parquet_exists <;>
    by_cases h2 : cache_last_modified ≥ last_modified <;>
      simp [load_data_path, read_source_data, h2]

/-- Witness for C7 at concrete freshness stamps: cache newer than source. -/
theorem claim_C7_witness :
    (load_data_path true true 0 1 = LoadPath.fromCache ↔
      (true = true ∧ (1 : Rat) ≥ 0)) ∧
    (load_data_path true true 0 1 = LoadPath.fromExcel ↔
      ¬ (true = true ∧ (1 : Rat) ≥ 0)) ∧
    read_source_data ⟨[], []⟩ true = read_source_data ⟨[], []⟩ false :=
  claim_C7_cache_freshness true true 0 1 ⟨[], []⟩ true false rfl
